import Mathlib

/-!
# Cx1ClientGo: request dispatch, flags and license accessors of `cx1client.go`

A shallow embedding of `src/cx1client.go`.

* Go strings and byte slices are lists of bytes; `len` is `List.length` and
  `s[:20]` is `List.take 20`.
* A Go `error` is identified with the text of its `Error()` method; a nil error
  is `none`.
* A run-time panic (nil dereference, failed type assertion) is the `Except.error`
  outcome of a function; a normal return is `Except.ok`.
* The network is a log of the calls made so far (`World.calls`); the transport
  answers a request as a function of that log and of the request.
* Functions of the Go standard library and of third-party packages
  (`http.NewRequest`, `json.Unmarshal`, `strings.EqualFold`, the OAuth2 token
  source, the JWT parser) are fields of `Lib`; every theorem holds for every `Lib`.
* Calls on `c.logger` only write to the log sink and are left out; the methods
  are modelled for a client whose logger and transport are not nil.
-/

namespace Cx1ClientGo

/-! ## Data model -/

/-- A Go `string` or `[]byte`. -/
abbrev GoString := List UInt8

/-- The bytes of an ASCII string literal of the source. -/
def lit (s : String) : GoString := s.toList.map Char.toUInt8

/-- A non-nil Go `error`, identified with its `Error()` text. -/
structure GoError where
  text : GoString
deriving DecidableEq

/-- The ways a Go function can abort instead of returning. -/
inductive Panic where
  /-- A nil pointer or nil interface is dereferenced. -/
  | nilDereference
  /-- An unchecked type assertion `x.(string)` on a value that is not a string. -/
  | typeAssertion
deriving DecidableEq

/-- What `json.Unmarshal` stores in an `interface{}`: nil for JSON `null`, `bool`,
`float64`, `string`, `[]interface{}` or `map[string]interface{}`. -/
inductive JsonValue where
  | null
  | bool (b : Bool)
  | number (f : Float)
  | str (s : GoString)
  | array (xs : List JsonValue)
  | object (kvs : List (GoString × JsonValue))

/-- A decoded `map[string]interface{}`; the nil map is the empty list. -/
abbrev JsonObject := List (GoString × JsonValue)

/-- An `http.Header`: canonical header names with their values. -/
abbrev Header := List (GoString × List GoString)

/-- The fields of an `http.Request` that `createRequest` sets. -/
structure Request where
  Method : GoString
  URL : GoString
  Body : Option GoString
  Header : Header

/-- The fields of an `http.Response` that the dispatcher reads. `Body` is `none` for a nil
body, otherwise the bytes `io.ReadAll` obtains from the stream from now on (read errors
are discarded by the source). -/
structure Response where
  Status : GoString
  StatusCode : Int
  Body : Option GoString
deriving DecidableEq

/-- One use of the network. -/
inductive NetCall where
  /-- A request handed to the transport by `httpClient.Do`. -/
  | http (req : Request)
  /-- A token exchange against the identity provider's token endpoint. -/
  | token (tokenURL clientID clientSecret : GoString)

/-- The state outside the client object: the network log and the package-level
variables `tenantID` and `astAppID`. -/
structure World where
  calls : List NetCall
  tenantID : GoString
  astAppID : GoString

/-- An `*http.Client`: what `Do` returns for a request, given the calls made before. -/
structure HttpClient where
  Do : List NetCall → Request → Option Response × Option GoError

/-- The target of a non-nil `*logrus.Logger`. -/
inductive Logger where
  | mk
deriving DecidableEq

/-- One element of the `/flags` response, the anonymous struct of `RefreshFlags`. -/
structure FlagRecord where
  Name : GoString
  Status : Bool
deriving DecidableEq

/-- A `map[string]bool`; the nil map is the empty list, and a key occurs at most once in a
map built by `mapSet`. -/
abbrev FlagMap := List (GoString × Bool)

/-- Modelled from the spec: the type of `ASTLicense.LicenseData` is declared outside
`cx1client.go`; of its fields only `AllowedEngines`, the allowed engines of the license, is
used. -/
structure ASTLicenseData where
  AllowedEngines : List GoString

/-- Modelled from the spec: the type `ASTLicense` is declared outside `cx1client.go`; of
its fields only `LicenseData` is used. -/
structure ASTLicense where
  LicenseData : ASTLicenseData

/-- Modelled from the spec: the claims type is declared outside `cx1client.go`; it holds the
license read from the access token. -/
structure Cx1Claims where
  Cx1License : ASTLicense

/-- Modelled from the spec: the type `ClientVars` is declared outside `cx1client.go`; these
are the fields `InitializeClient` sets, a maximum wait and a polling interval in seconds for
each long-running operation. -/
structure ClientVars where
  MigrationPollingMaxSeconds : Int
  MigrationPollingDelaySeconds : Int
  AuditEnginePollingMaxSeconds : Int
  AuditEnginePollingDelaySeconds : Int
  AuditScanPollingMaxSeconds : Int
  AuditScanPollingDelaySeconds : Int
  AuditLanguagePollingMaxSeconds : Int
  AuditLanguagePollingDelaySeconds : Int
  AuditCompilePollingMaxSeconds : Int
  AuditCompilePollingDelaySeconds : Int
  ScanPollingMaxSeconds : Int
  ScanPollingDelaySeconds : Int
  ProjectApplicationLinkPollingDelaySeconds : Int
  ProjectApplicationLinkPollingMaxSeconds : Int
deriving DecidableEq

/-- Modelled from the spec: the type `Cx1Client` is declared outside `cx1client.go`; these
are the fields the file reads and writes. -/
structure Cx1Client where
  httpClient : HttpClient
  baseUrl : GoString
  iamUrl : GoString
  tenant : GoString
  logger : Option Logger
  flags : FlagMap
  claims : Cx1Claims
  consts : ClientVars

/-- The `clientcredentials.Config` built by `NewOAuthClient`. -/
structure Config where
  ClientID : GoString
  ClientSecret : GoString
  TokenURL : GoString
deriving DecidableEq

/-- Functions of the standard library and of third-party packages that the file calls,
and the two methods of the client that are defined in other files. -/
structure Lib where
  /-- The call `http.NewRequest(method, url, body)`. -/
  NewRequest : GoString → GoString → Option GoString → Except GoError Request
  /-- The canonical form of a header name used by `Header.Add`, `Get` and `Set`. -/
  CanonicalKey : GoString → GoString
  /-- The call `json.Unmarshal(data, &msg)` for `msg map[string]interface{}`. -/
  UnmarshalObject : GoString → Except GoError JsonObject
  /-- The call `json.Unmarshal(data, &FlagResponse)` for the slice of flag records. -/
  UnmarshalFlags : GoString → Except GoError (List FlagRecord)
  /-- The function `strings.EqualFold`. -/
  EqualFold : GoString → GoString → Bool
  /-- The call `conf.Client(ctx)`: the transport that attaches the bearer token. -/
  ConfigClient : Config → HttpClient → HttpClient
  /-- The answer of the token endpoint to `conf.Token(ctx)`: the access token or an error. -/
  TokenEndpoint : List NetCall → Config → Except GoError GoString
  /-- The call `jwt.ParseWithClaims(jwtToken, &c.claims, keyFunc)`: the claims afterwards
  and the error. -/
  ParseWithClaims : GoString → Cx1Claims → Cx1Claims × Option GoError
  /-- The method `GetTenantID`, defined in another file. -/
  GetTenantID : Cx1Client → World → Except Panic GoString × World
  /-- The method `GetASTAppID`, defined in another file. -/
  GetASTAppID : Cx1Client → World → Except Panic GoString × World

/-! ## Helpers of the Go runtime and library -/

/-- The format `fmt.Errorf("HTTP %v: %v", status, str)` (also with `%s`) on strings. -/
def httpError (status str : GoString) : GoError :=
  ⟨lit "HTTP " ++ status ++ lit ": " ++ str⟩

/-- The map index expression `m[key]` with the comma-ok form: the value and whether the key
is present. -/
def mapGet? {β : Type} (m : List (GoString × β)) (key : GoString) : Option β :=
  (m.find? (fun p => decide (p.1 = key))).map (fun p => p.2)

/-- The map assignment `m[key] = value`. -/
def mapSet {β : Type} (m : List (GoString × β)) (key : GoString) (value : β) :
    List (GoString × β) :=
  (key, value) :: m.filter (fun p => !decide (p.1 = key))

/-- The index expression `msg[key]` on a `map[string]interface{}`: nil when the key is
missing. -/
def msgIndex (msg : JsonObject) (key : GoString) : JsonValue :=
  match mapGet? msg key with
  | some v => v
  | none => JsonValue.null

/-- The comparison `v != nil` on an `interface{}`. -/
def JsonValue.notNil : JsonValue → Bool
  | JsonValue.null => false
  | _ => true

/-- The unchecked type assertion `v.(string)`. -/
def assertString : JsonValue → Except Panic GoString
  | JsonValue.str s => Except.ok s
  | _ => Except.error Panic.typeAssertion

/-- The method `Header.Get`: the first value of the canonical key, or the empty string. -/
def Header.Get (lib : Lib) (h : Header) (key : GoString) : GoString :=
  match mapGet? h (lib.CanonicalKey key) with
  | some (v :: _) => v
  | _ => []

/-- The method `Header.Set`: the canonical key gets the single value. -/
def Header.Set (lib : Lib) (h : Header) (key value : GoString) : Header :=
  mapSet h (lib.CanonicalKey key) [value]

/-- The method `Header.Add`: the value is appended to those of the canonical key. -/
def Header.Add (lib : Lib) (h : Header) (key value : GoString) : Header :=
  match mapGet? h (lib.CanonicalKey key) with
  | some vs => mapSet h (lib.CanonicalKey key) (vs ++ [value])
  | none => mapSet h (lib.CanonicalKey key) [value]

/-- The response after `io.ReadAll` has consumed its body. -/
def Response.drained (r : Response) : Response :=
  { r with Body := r.Body.map (fun _ => []) }

/-! ## The request dispatcher -/

/-- The `User-Agent` that `createRequest` sets when the caller gave none (line 114). -/
def defaultUserAgent : GoString :=
  lit "Mozilla/5.0 (Windows NT 10.0; Win64; x64; rv:105.0) Gecko/20100101 Firefox/105.0"

/-- The method `createRequest` (lines 100-122). `header` is listed in the order in which the
`range` loop visits it. -/
def createRequest (lib : Lib) (method url : GoString) (body : Option GoString)
    (header : Header) : Request × Option GoError :=
  match lib.NewRequest method url body with
  | Except.error err => (⟨[], [], none, []⟩, some err)
  | Except.ok request =>
    let request := header.foldl
      (fun (request : Request) (entry : GoString × List GoString) =>
        entry.2.foldl
          (fun (request : Request) (h : GoString) =>
            { request with Header := Header.Add lib request.Header entry.1 h })
          request)
      request
    let request :=
      if Header.Get lib request.Header (lit "User-Agent") = [] then
        { request with Header := Header.Set lib request.Header (lit "User-Agent") defaultUserAgent }
      else request
    let request :=
      if Header.Get lib request.Header (lit "Content-Type") = [] then
        { request with Header := Header.Set lib request.Header (lit "Content-Type") (lit "application/json") }
      else request
    (request, none)

/-- Lines 178-193 of `sendRequestRaw`: the text taken from the decoded error body. `str` starts
as the empty string, the zero value of `var str string`. -/
def errorBodyText (msg : JsonObject) (resBody : GoString) : Except Panic GoString :=
  let str : GoString := []
  if (msgIndex msg (lit "message")).notNil then
    assertString (msgIndex msg (lit "message"))
  else if (msgIndex msg (lit "error_description")).notNil then
    assertString (msgIndex msg (lit "error_description"))
  else if (msgIndex msg (lit "error")).notNil then
    assertString (msgIndex msg (lit "error"))
  else if (msgIndex msg (lit "errorMessage")).notNil then
    assertString (msgIndex msg (lit "errorMessage"))
  else
    if str.length > 20 then
      Except.ok (resBody.take 20)
    else
      Except.ok resBody

/-- Lines 172-205 of `sendRequestRaw`: the classification of the response by its status. -/
def classifyResponse (lib : Lib) (response : Option Response) :
    Except Panic (Option Response × Option GoError) :=
  match response with
  | none => Except.error Panic.nilDereference
  | some response =>
    if response.StatusCode ≥ 400 then
      match response.Body with
      | none => Except.error Panic.nilDereference
      | some resBody =>
        match lib.UnmarshalObject resBody with
        | Except.ok msg =>
          match errorBodyText msg resBody with
          | Except.error p => Except.error p
          | Except.ok str =>
            Except.ok (some response.drained, some (httpError response.Status str))
        | Except.error _ =>
          let str := resBody
          let str := if str.length > 20 then str.take 20 else str
          Except.ok (some response.drained, some (httpError response.Status str))
    else
      Except.ok (some response, none)

/-- The text of the transport error that the dispatcher treats as benign (line 158). -/
def tlsUserCanceled : GoString := lit "remote error: tls: user canceled"

/-- Lines 155-205 of `sendRequestRaw`: what is returned for the outcome `(response, err)` of
`httpClient.Do`. -/
def handleDoOutcome (lib : Lib) (response : Option Response) (err : Option GoError) :
    Except Panic (Option Response × Option GoError) :=
  match err with
  | some err =>
    if err.text = tlsUserCanceled then
      classifyResponse lib response
    else
      Except.ok (response.map Response.drained, some err)
  | none => classifyResponse lib response

/-- The world after one more request has been handed to the transport. -/
def World.afterDo (w : World) (request : Request) : World :=
  { w with calls := w.calls ++ [NetCall.http request] }

/-- The method `sendRequestRaw` (lines 135-206). -/
def sendRequestRaw (lib : Lib) (c : Cx1Client) (method url : GoString)
    (body : Option GoString) (header : Header) (w : World) :
    Except Panic (Option Response × Option GoError) × World :=
  let requestBody := body
  match createRequest lib method url requestBody header with
  | (_, some err) => (Except.ok (none, some err), w)
  | (request, none) =>
    let out := c.httpClient.Do w.calls request
    (handleDoOutcome lib out.1 out.2, w.afterDo request)

/-- The method `sendRequestInternal` (lines 124-133). -/
def sendRequestInternal (lib : Lib) (c : Cx1Client) (method url : GoString)
    (body : Option GoString) (header : Header) (w : World) :
    Except Panic (GoString × Option GoError) × World :=
  match sendRequestRaw lib c method url body header w with
  | (Except.error p, w) => (Except.error p, w)
  | (Except.ok (response, err), w) =>
    let resBody : GoString :=
      match response with
      | some response =>
        match response.Body with
        | some b => b
        | none => []
      | none => []
    (Except.ok (resBody, err), w)

/-- The method `sendRequest` (lines 208-211). -/
def sendRequest (lib : Lib) (c : Cx1Client) (method url : GoString)
    (body : Option GoString) (header : Header) (w : World) :
    Except Panic (GoString × Option GoError) × World :=
  let cx1url := c.baseUrl ++ lit "/api" ++ url
  sendRequestInternal lib c method cx1url body header w

/-! ## Flags, license and construction -/

/-- Lines 299-301 of `RefreshFlags`: the loop that stores each record in `flags`. -/
def storeFlags (flags : FlagMap) (FlagResponse : List FlagRecord) : FlagMap :=
  FlagResponse.foldl
    (fun (flags : FlagMap) (fr : FlagRecord) => mapSet flags fr.Name fr.Status) flags

/-- The method `RefreshFlags` (lines 278-306); the client afterwards is returned with the
error. -/
def RefreshFlags (lib : Lib) (c : Cx1Client) (w : World) :
    Except Panic (Option GoError) × Cx1Client × World :=
  let flags : FlagMap := []
  match sendRequest lib c (lit "GET") (lit "/flags?filter=" ++ w.tenantID) none [] w with
  | (Except.error p, w) => (Except.error p, c, w)
  | (Except.ok (_, some err), w) => (Except.ok (some err), c, w)
  | (Except.ok (response, none), w) =>
    match lib.UnmarshalFlags response with
    | Except.error err => (Except.ok (some err), c, w)
    | Except.ok FlagResponse =>
      let flags := storeFlags flags FlagResponse
      (Except.ok none, { c with flags := flags }, w)

/-- The method `parseJWT` (lines 308-313); the client afterwards is returned with the
error. -/
def parseJWT (lib : Lib) (c : Cx1Client) (jwtToken : GoString) : Cx1Client × Option GoError :=
  let out := lib.ParseWithClaims jwtToken c.claims
  ({ c with claims := out.1 }, out.2)

/-- The method `GetFlags` (lines 315-317). -/
def GetFlags (c : Cx1Client) : FlagMap := c.flags

/-- The method `GetLicense` (lines 319-321). -/
def GetLicense (c : Cx1Client) : ASTLicense := c.claims.Cx1License

/-- The loop of `IsEngineAllowed` (lines 324-329) over the engines still to visit. -/
def engineAllowedIn (lib : Lib) (engine : GoString) : List GoString → Bool
  | [] => false
  | eng :: rest =>
    if lib.EqualFold engine eng = true then true else engineAllowedIn lib engine rest

/-- The method `IsEngineAllowed` (lines 323-330). -/
def IsEngineAllowed (lib : Lib) (c : Cx1Client) (engine : GoString) : Bool :=
  engineAllowedIn lib engine c.claims.Cx1License.LicenseData.AllowedEngines

/-- The method `CheckFlag` (lines 332-339). -/
def CheckFlag (c : Cx1Client) (flag : GoString) : Bool × Option GoError :=
  match mapGet? c.flags flag with
  | none => (false, some ⟨lit "no such flag: " ++ flag⟩)
  | some setting => (setting, none)

/-- The method `GetClientVars` (lines 341-344). -/
def GetClientVars (c : Cx1Client) : ClientVars := c.consts

/-- The method `SetClientVars` (lines 346-348). -/
def SetClientVars (c : Cx1Client) (clientvars : ClientVars) : Cx1Client :=
  { c with consts := clientvars }

/-- The polling limits that `InitializeClient` assigns (lines 256-275). -/
def defaultClientVars : ClientVars where
  MigrationPollingMaxSeconds := 300
  MigrationPollingDelaySeconds := 15
  AuditEnginePollingMaxSeconds := 300
  AuditEnginePollingDelaySeconds := 15
  AuditScanPollingMaxSeconds := 600
  AuditScanPollingDelaySeconds := 15
  AuditLanguagePollingMaxSeconds := 300
  AuditLanguagePollingDelaySeconds := 15
  AuditCompilePollingMaxSeconds := 600
  AuditCompilePollingDelaySeconds := 15
  ScanPollingMaxSeconds := 0
  ScanPollingDelaySeconds := 15
  ProjectApplicationLinkPollingDelaySeconds := 5
  ProjectApplicationLinkPollingMaxSeconds := 300

/-- The method `InitializeClient` (lines 247-276); the error of `RefreshFlags` is only
logged. -/
def InitializeClient (lib : Lib) (c : Cx1Client) (w : World) :
    Except Panic Unit × Cx1Client × World :=
  match lib.GetTenantID c w with
  | (Except.error p, w) => (Except.error p, c, w)
  | (Except.ok _, w) =>
    match lib.GetASTAppID c w with
    | (Except.error p, w) => (Except.error p, c, w)
    | (Except.ok _, w) =>
      match RefreshFlags lib c w with
      | (Except.error p, c, w) => (Except.error p, c, w)
      | (Except.ok _, c, w) => (Except.ok (), { c with consts := defaultClientVars }, w)

/-- The world after a token exchange for `conf`. -/
def World.afterToken (w : World) (conf : Config) : World :=
  { w with calls := w.calls ++ [NetCall.token conf.TokenURL conf.ClientID conf.ClientSecret] }

/-- The function `NewOAuthClient` (lines 26-59). `client` and `logger` are pointers and may
be nil. -/
def NewOAuthClient (lib : Lib) (client : Option HttpClient)
    (base_url iam_url tenant client_id client_secret : GoString) (logger : Option Logger)
    (w : World) : Except Panic (Option Cx1Client × Option GoError) × World :=
  if base_url = [] ∨ iam_url = [] ∨ tenant = [] ∨ client_id = [] ∨ client_secret = [] ∨
      logger = none then
    (Except.ok (none, some ⟨lit "unable to create client: invalid parameters provided"⟩), w)
  else
    match client with
    | none => (Except.error Panic.nilDereference, w)
    | some client =>
      let conf : Config :=
        { ClientID := client_id
          ClientSecret := client_secret
          TokenURL := iam_url ++ lit "/auth/realms/" ++ tenant ++
            lit "/protocol/openid-connect/token" }
      let oauthclient := lib.ConfigClient conf client
      let cli : Cx1Client :=
        { httpClient := oauthclient
          baseUrl := base_url
          iamUrl := iam_url
          tenant := tenant
          logger := logger
          flags := []
          claims := ⟨⟨⟨[]⟩⟩⟩
          consts := ⟨0, 0, 0, 0, 0, 0, 0, 0, 0, 0, 0, 0, 0, 0⟩ }
      match InitializeClient lib cli w with
      | (Except.error p, _, w) => (Except.error p, w)
      | (Except.ok _, cli, w) =>
        match lib.TokenEndpoint w.calls conf with
        | Except.error _ => (Except.ok (some cli, none), w.afterToken conf)
        | Except.ok accessToken =>
          (Except.ok (some (parseJWT lib cli accessToken).1, none), w.afterToken conf)

/-- The transport errors after which `sendRequestRaw` goes on to the status check of line 172:
no error, or the error of line 158. -/
def continuesToStatusCheck (err : Option GoError) : Bool :=
  match err with
  | none => true
  | some e => decide (e.text = tlsUserCanceled)

/-! ## Concrete library and transport used in the examples -/

/-- A library whose `http.NewRequest` accepts every request and whose JSON decoders reject
every input. -/
def stubLib : Lib where
  NewRequest := fun method url body => Except.ok ⟨method, url, body, []⟩
  CanonicalKey := fun k => k
  UnmarshalObject := fun _ => Except.error ⟨lit "invalid character"⟩
  UnmarshalFlags := fun _ => Except.error ⟨lit "invalid character"⟩
  EqualFold := fun s t => decide (s = t)
  ConfigClient := fun _ client => client
  TokenEndpoint := fun _ _ => Except.error ⟨lit "token endpoint unavailable"⟩
  ParseWithClaims := fun _ claims => (claims, none)
  GetTenantID := fun _ w => (Except.ok [], w)
  GetASTAppID := fun _ w => (Except.ok [], w)

/-- A library like `stubLib` whose `json.Unmarshal` into a map yields `msg`. -/
def jsonLib (msg : JsonObject) : Lib :=
  { stubLib with UnmarshalObject := fun _ => Except.ok msg }

/-- A client whose transport answers every request with `out`. -/
def stubClient (out : Option Response × Option GoError) : Cx1Client where
  httpClient := ⟨fun _ _ => out⟩
  baseUrl := lit "https://cx1.example"
  iamUrl := lit "https://iam.example"
  tenant := lit "tenant"
  logger := some Logger.mk
  flags := []
  claims := ⟨⟨⟨[]⟩⟩⟩
  consts := ⟨0, 0, 0, 0, 0, 0, 0, 0, 0, 0, 0, 0, 0, 0⟩

/-- A world in which no network call has been made. -/
def emptyWorld : World := ⟨[], [], []⟩

/-- A response with status line `400 Bad Request` and the given body. -/
def badRequest (body : GoString) : Response := ⟨lit "400 Bad Request", 400, some body⟩

/-- The request that `createRequest` builds for a `GET` of `/projects` without body and
headers. -/
def getProjects (lib : Lib) : Request :=
  (createRequest lib (lit "GET") (lit "/projects") none []).1

/-- An error body with a `message` of 26 bytes next to an `error` key. -/
def messageBody : GoString :=
  lit "\x7b\"message\":\"abcdefghijklmnopqrstuvwxyz\",\"error\":\"E\"\x7d"

/-- The object decoded from `messageBody`. -/
def messageObject : JsonObject :=
  [(lit "message", JsonValue.str (lit "abcdefghijklmnopqrstuvwxyz")),
   (lit "error", JsonValue.str (lit "E"))]

/-- An error body of 31 bytes that is not JSON. -/
def htmlBody : GoString := lit "<html>502 Bad Gateway</html>..."

/-- An error body of 39 bytes, a JSON object without any of the four message keys. -/
def detailBody : GoString := lit "\x7b\"detail\":\"abcdefghijklmnopqrstuvwxyz\"\x7d"

/-- The object decoded from `detailBody`. -/
def detailObject : JsonObject :=
  [(lit "detail", JsonValue.str (lit "abcdefghijklmnopqrstuvwxyz"))]

/-- An error body whose `message` is JSON null and whose `error` is a string. -/
def nullMessageBody : GoString := lit "\x7b\"message\":null,\"error\":\"E\"\x7d"

/-- The object decoded from `nullMessageBody`: the key `message` is present with a nil
value. -/
def nullMessageObject : JsonObject :=
  [(lit "message", JsonValue.null), (lit "error", JsonValue.str (lit "E"))]

/-- An error body whose `message` is a number. -/
def numberMessageBody : GoString := lit "\x7b\"message\":123\x7d"

/-- The object decoded from `numberMessageBody`. -/
def numberMessageObject : JsonObject := [(lit "message", JsonValue.number 123)]

/-- An error body with `error_description` and `error` and without `message`. -/
def oauthErrorObject : JsonObject :=
  [(lit "error", JsonValue.str (lit "invalid_grant")),
   (lit "error_description", JsonValue.str (lit "Invalid user credentials"))]

/-- The keys searched for a message, in the order of lines 179-186. -/
def messageKeys : List GoString :=
  [lit "message", lit "error_description", lit "error", lit "errorMessage"]

/-- A response with status line `200 OK` and the given body. -/
def okResponse (body : GoString) : Response := ⟨lit "200 OK", 200, some body⟩

/-- The keys of a map. -/
def mapKeys {β : Type} (m : List (GoString × β)) : List GoString := m.map Prod.fst

/-- ASCII case folding of a byte. -/
def asciiLower (b : UInt8) : UInt8 := if 65 ≤ b ∧ b ≤ 90 then b + 32 else b

/-- A library like `stubLib` whose `EqualFold` compares ASCII strings without regard to
case. -/
def foldLib : Lib :=
  { stubLib with EqualFold := fun s t => decide (s.map asciiLower = t.map asciiLower) }

/-- A library like `stubLib` whose `json.Unmarshal` of the `/flags` response yields
`records`. -/
def flagsLib (records : List FlagRecord) : Lib :=
  { stubLib with UnmarshalFlags := fun _ => Except.ok records }

/-- A client like `stubClient out` that holds the flags `flags`. -/
def flagsClient (out : Option Response × Option GoError) (flags : FlagMap) : Cx1Client :=
  { stubClient out with flags := flags }

/-- A client like `stubClient` whose license allows the engines `engines`. -/
def licensedClient (engines : List GoString) : Cx1Client :=
  { stubClient (none, none) with claims := ⟨⟨⟨engines⟩⟩⟩ }

/-- The value that a sequence of flag records gives to a name: the status of the last record
with that name. -/
def lastStatus (records : List FlagRecord) (name : GoString) : Option Bool :=
  (records.reverse.find? (fun fr => decide (fr.Name = name))).map (fun fr => fr.Status)

/-- The URL path of the flags request of `RefreshFlags` (line 288). -/
def flagsPath (w : World) : GoString := lit "/flags?filter=" ++ w.tenantID

/-! ## Lemmas on the dispatcher -/

theorem sendRequestRaw_of_request (lib : Lib) (c : Cx1Client) (method url : GoString)
    (body : Option GoString) (header : Header) (w : World) (request : Request)
    (hreq : createRequest lib method url body header = (request, none)) :
    sendRequestRaw lib c method url body header w =
      (handleDoOutcome lib (c.httpClient.Do w.calls request).1
        (c.httpClient.Do w.calls request).2, w.afterDo request) := by
  simp only [sendRequestRaw, hreq, World.afterDo]

theorem handleDoOutcome_of_continues (lib : Lib) (response : Option Response)
    (err : Option GoError) (herr : continuesToStatusCheck err = true) :
    handleDoOutcome lib response err = classifyResponse lib response := by
  cases err with
  | none => rfl
  | some e =>
    have h : e.text = tlsUserCanceled := by simpa [continuesToStatusCheck] using herr
    simp [handleDoOutcome, h]

theorem handleDoOutcome_of_fatal (lib : Lib) (response : Option Response) (e : GoError)
    (he : e.text ≠ tlsUserCanceled) :
    handleDoOutcome lib response (some e) =
      Except.ok (response.map Response.drained, some e) := by
  simp [handleDoOutcome, he]

theorem sendRequestRaw_classifies (lib : Lib) (c : Cx1Client) (method url : GoString)
    (body : Option GoString) (header : Header) (w : World) (request : Request)
    (response : Option Response) (err : Option GoError)
    (hreq : createRequest lib method url body header = (request, none))
    (hdo : c.httpClient.Do w.calls request = (response, err))
    (herr : continuesToStatusCheck err = true) :
    sendRequestRaw lib c method url body header w =
      (classifyResponse lib response, w.afterDo request) := by
  rw [sendRequestRaw_of_request lib c method url body header w request hreq, hdo]
  simp only [handleDoOutcome_of_continues lib response err herr]

theorem classifyResponse_json (lib : Lib) (response : Response) (resBody : GoString)
    (msg : JsonObject) (hstatus : response.StatusCode ≥ 400)
    (hbody : response.Body = some resBody)
    (hjson : lib.UnmarshalObject resBody = Except.ok msg) :
    classifyResponse lib (some response) =
      match errorBodyText msg resBody with
      | Except.error p => Except.error p
      | Except.ok str =>
        Except.ok (some response.drained, some (httpError response.Status str)) := by
  simp only [classifyResponse, hstatus, hbody, hjson, if_true]

theorem classifyResponse_not_json (lib : Lib) (response : Response) (resBody : GoString)
    (e : GoError) (hstatus : response.StatusCode ≥ 400)
    (hbody : response.Body = some resBody)
    (hjson : lib.UnmarshalObject resBody = Except.error e) :
    classifyResponse lib (some response) =
      Except.ok (some response.drained, some (httpError response.Status
        (if resBody.length > 20 then resBody.take 20 else resBody))) := by
  simp only [classifyResponse, hstatus, hbody, hjson, if_true]

theorem classifyResponse_success (lib : Lib) (response : Response)
    (hstatus : response.StatusCode < 400) :
    classifyResponse lib (some response) = Except.ok (some response, none) := by
  have h : ¬ response.StatusCode ≥ 400 := by omega
  simp only [classifyResponse, h, if_false]

theorem msgIndex_of_mapGet? (msg : JsonObject) (key : GoString) (v : JsonValue)
    (h : mapGet? msg key = some v) : msgIndex msg key = v := by
  simp [msgIndex, h]

theorem errorBodyText_message (msg : JsonObject) (resBody X : GoString)
    (h : msgIndex msg (lit "message") = JsonValue.str X) :
    errorBodyText msg resBody = Except.ok X := by
  simp [errorBodyText, h, JsonValue.notNil, assertString]

theorem errorBodyText_first (msg : JsonObject) (resBody S k : GoString)
    (pre post : List GoString) (hkeys : messageKeys = pre ++ k :: post)
    (hpre : ∀ k' ∈ pre, msgIndex msg k' = JsonValue.null)
    (hk : msgIndex msg k = JsonValue.str S) :
    errorBodyText msg resBody = Except.ok S := by
  rcases pre with _ | ⟨a, _ | ⟨b, _ | ⟨c, _ | ⟨d, pre⟩⟩⟩⟩
  · simp only [messageKeys, List.nil_append, List.cons.injEq] at hkeys
    obtain ⟨rfl, -⟩ := hkeys
    simp [errorBodyText, hk, JsonValue.notNil, assertString]
  · simp only [messageKeys, List.cons_append, List.nil_append, List.cons.injEq] at hkeys
    obtain ⟨rfl, rfl, -⟩ := hkeys
    have ha := hpre (lit "message") (by simp)
    simp [errorBodyText, ha, hk, JsonValue.notNil, assertString]
  · simp only [messageKeys, List.cons_append, List.nil_append, List.cons.injEq] at hkeys
    obtain ⟨rfl, rfl, rfl, -⟩ := hkeys
    have ha := hpre (lit "message") (by simp)
    have hb := hpre (lit "error_description") (by simp)
    simp [errorBodyText, ha, hb, hk, JsonValue.notNil, assertString]
  · simp only [messageKeys, List.cons_append, List.nil_append, List.cons.injEq] at hkeys
    obtain ⟨rfl, rfl, rfl, rfl, -⟩ := hkeys
    have ha := hpre (lit "message") (by simp)
    have hb := hpre (lit "error_description") (by simp)
    have hc := hpre (lit "error") (by simp)
    simp [errorBodyText, ha, hb, hc, hk, JsonValue.notNil, assertString]
  · simp [messageKeys] at hkeys

theorem errorBodyText_fallback (msg : JsonObject) (resBody : GoString)
    (h : ∀ k ∈ messageKeys, msgIndex msg k = JsonValue.null) :
    errorBodyText msg resBody = Except.ok resBody := by
  have h1 := h (lit "message") (by simp [messageKeys])
  have h2 := h (lit "error_description") (by simp [messageKeys])
  have h3 := h (lit "error") (by simp [messageKeys])
  have h4 := h (lit "errorMessage") (by simp [messageKeys])
  simp [errorBodyText, h1, h2, h3, h4, JsonValue.notNil]

theorem sendRequestInternal_of_raw (lib : Lib) (c : Cx1Client) (method url : GoString)
    (body : Option GoString) (header : Header) (w w1 : World) (response : Option Response)
    (err : Option GoError)
    (h : sendRequestRaw lib c method url body header w = (Except.ok (response, err), w1)) :
    sendRequestInternal lib c method url body header w =
      (Except.ok ((response.bind (fun r => r.Body)).getD [], err), w1) := by
  simp only [sendRequestInternal, h]
  cases response with
  | none => rfl
  | some r => cases hb : r.Body <;> simp [hb]

/-! ## The claims on the dispatcher -/

/-- C1: when the transport's response reaches the status check with status >= 400 and its
body decodes to a JSON object whose key `message` holds the string `X`, whatever else the
object holds and however long `X` is, `sendRequestRaw` returns the response with the error
whose text is `"HTTP " + Status + ": " + X`. -/
theorem sendRequestRaw_message_text (lib : Lib) (c : Cx1Client) (method url : GoString)
    (body : Option GoString) (header : Header) (w : World) (request : Request)
    (response : Response) (err : Option GoError) (resBody : GoString) (msg : JsonObject)
    (X : GoString)
    (hreq : createRequest lib method url body header = (request, none))
    (hdo : c.httpClient.Do w.calls request = (some response, err))
    (herr : continuesToStatusCheck err = true)
    (hstatus : response.StatusCode ≥ 400)
    (hbody : response.Body = some resBody)
    (hjson : lib.UnmarshalObject resBody = Except.ok msg)
    (hmsg : mapGet? msg (lit "message") = some (JsonValue.str X)) :
    sendRequestRaw lib c method url body header w =
      (Except.ok (some response.drained,
        some ⟨lit "HTTP " ++ response.Status ++ lit ": " ++ X⟩), w.afterDo request) := by
  rw [sendRequestRaw_classifies lib c method url body header w request (some response) err
    hreq hdo herr, classifyResponse_json lib response resBody msg hstatus hbody hjson,
    errorBodyText_message msg resBody X (msgIndex_of_mapGet? msg _ _ hmsg)]
  rfl

/-- Witness of C1: a `400 Bad Request` with a 26-byte `message` next to an `error` key. -/
theorem sendRequestRaw_message_text_witness :
    sendRequestRaw (jsonLib messageObject) (stubClient (some (badRequest messageBody), none))
        (lit "GET") (lit "/projects") none [] emptyWorld =
      (Except.ok (some (badRequest []),
        some ⟨lit "HTTP 400 Bad Request: abcdefghijklmnopqrstuvwxyz"⟩),
        emptyWorld.afterDo (getProjects (jsonLib messageObject))) :=
  sendRequestRaw_message_text (jsonLib messageObject)
    (stubClient (some (badRequest messageBody), none)) (lit "GET") (lit "/projects") none []
    emptyWorld (getProjects (jsonLib messageObject)) (badRequest messageBody) none messageBody
    messageObject (lit "abcdefghijklmnopqrstuvwxyz") rfl rfl rfl (by decide) rfl rfl rfl

/-- C2: when the transport's response reaches the status check with status >= 400 and
`json.Unmarshal` of its body into a map fails, the error text is `"HTTP " + Status + ": "`
followed by the first 20 bytes of the body, and by nothing else, if the body is longer than
20 bytes, and followed by the whole body if it is 20 bytes or shorter. -/
theorem sendRequestRaw_not_json_text (lib : Lib) (c : Cx1Client) (method url : GoString)
    (body : Option GoString) (header : Header) (w : World) (request : Request)
    (response : Response) (err : Option GoError) (resBody : GoString) (e : GoError)
    (hreq : createRequest lib method url body header = (request, none))
    (hdo : c.httpClient.Do w.calls request = (some response, err))
    (herr : continuesToStatusCheck err = true)
    (hstatus : response.StatusCode ≥ 400)
    (hbody : response.Body = some resBody)
    (hjson : lib.UnmarshalObject resBody = Except.error e) :
    (resBody.length > 20 →
      sendRequestRaw lib c method url body header w =
        (Except.ok (some response.drained,
          some ⟨lit "HTTP " ++ response.Status ++ lit ": " ++ resBody.take 20⟩),
          w.afterDo request) ∧
      (resBody.take 20).length = 20) ∧
    (resBody.length ≤ 20 →
      sendRequestRaw lib c method url body header w =
        (Except.ok (some response.drained,
          some ⟨lit "HTTP " ++ response.Status ++ lit ": " ++ resBody⟩),
          w.afterDo request)) := by
  rw [sendRequestRaw_classifies lib c method url body header w request (some response) err
    hreq hdo herr, classifyResponse_not_json lib response resBody e hstatus hbody hjson]
  refine ⟨fun hlong => ⟨?_, ?_⟩, fun hshort => ?_⟩
  · rw [if_pos hlong]; rfl
  · rw [List.length_take]; omega
  · rw [if_neg (by omega)]; rfl

/-- Witness of C2: a `400 Bad Request` whose body is 31 bytes of HTML. -/
theorem sendRequestRaw_not_json_text_witness :
    htmlBody.length > 20 ∧
    sendRequestRaw stubLib (stubClient (some (badRequest htmlBody), none))
        (lit "GET") (lit "/projects") none [] emptyWorld =
      (Except.ok (some (badRequest []),
        some ⟨lit "HTTP 400 Bad Request: <html>502 Bad Gatewa"⟩),
        emptyWorld.afterDo (getProjects stubLib)) :=
  ⟨by decide,
   ((sendRequestRaw_not_json_text stubLib (stubClient (some (badRequest htmlBody), none))
    (lit "GET") (lit "/projects") none [] emptyWorld (getProjects stubLib)
    (badRequest htmlBody) none htmlBody ⟨lit "invalid character"⟩ rfl rfl rfl (by decide)
    rfl rfl).1 (by decide)).1⟩

/-- C3: on a `400 Bad Request` whose body is a JSON object of 39 bytes without any of the
keys `message`, `error_description`, `error`, `errorMessage`, the error text carries the
whole body after `"HTTP 400 Bad Request: "`, not its first 20 bytes: the test of line 188
measures the still empty `str`, not the body. -/
theorem sendRequestRaw_fallback_keeps_whole_body :
    detailBody.length = 39 ∧
    (∀ k ∈ messageKeys, (mapGet? detailObject k).isNone = true) ∧
    sendRequestRaw (jsonLib detailObject) (stubClient (some (badRequest detailBody), none))
        (lit "GET") (lit "/projects") none [] emptyWorld =
      (Except.ok (some (badRequest []),
        some ⟨lit "HTTP 400 Bad Request: " ++ detailBody⟩),
        emptyWorld.afterDo (getProjects (jsonLib detailObject))) ∧
    lit "HTTP 400 Bad Request: " ++ detailBody ≠
      lit "HTTP 400 Bad Request: " ++ detailBody.take 20 := by
  refine ⟨by decide, by decide, rfl, by decide⟩

/-- Counterexample to C4: the decoded object holds the key `message` (with value null) and
the key `error` with the string `E`; the error text is taken from the lower-priority key
`error` although the higher-priority key `message` is present. -/
theorem sendRequestRaw_priority_counterexample :
    (mapGet? nullMessageObject (lit "message")).isSome = true ∧
    sendRequestRaw (jsonLib nullMessageObject)
        (stubClient (some (badRequest nullMessageBody), none))
        (lit "GET") (lit "/projects") none [] emptyWorld =
      (Except.ok (some (badRequest []), some ⟨lit "HTTP 400 Bad Request: E"⟩),
        emptyWorld.afterDo (getProjects (jsonLib nullMessageObject))) :=
  ⟨rfl, rfl⟩

/-- C4 (amended): when the transport's response reaches the status check with status >= 400
and its body decodes to a JSON object, the error text is `"HTTP " + Status + ": " + S` where
`S` is the string value of the first key, in the order `message`, `error_description`,
`error`, `errorMessage`, whose value is not nil; a key that is absent or holds JSON null is
passed over, so a lower-priority key is used exactly when every higher-priority key is absent
or null. -/
theorem sendRequestRaw_priority_text (lib : Lib) (c : Cx1Client) (method url : GoString)
    (body : Option GoString) (header : Header) (w : World) (request : Request)
    (response : Response) (err : Option GoError) (resBody : GoString) (msg : JsonObject)
    (pre post : List GoString) (k S : GoString)
    (hreq : createRequest lib method url body header = (request, none))
    (hdo : c.httpClient.Do w.calls request = (some response, err))
    (herr : continuesToStatusCheck err = true)
    (hstatus : response.StatusCode ≥ 400)
    (hbody : response.Body = some resBody)
    (hjson : lib.UnmarshalObject resBody = Except.ok msg)
    (hkeys : messageKeys = pre ++ k :: post)
    (hpre : ∀ k' ∈ pre, msgIndex msg k' = JsonValue.null)
    (hk : msgIndex msg k = JsonValue.str S) :
    sendRequestRaw lib c method url body header w =
      (Except.ok (some response.drained,
        some ⟨lit "HTTP " ++ response.Status ++ lit ": " ++ S⟩), w.afterDo request) := by
  rw [sendRequestRaw_classifies lib c method url body header w request (some response) err
    hreq hdo herr, classifyResponse_json lib response resBody msg hstatus hbody hjson,
    errorBodyText_first msg resBody S k pre post hkeys hpre hk]
  rfl

/-- Witness of C4 (amended): with `error_description` and `error` and no `message`, the text is
the value of `error_description`. -/
theorem sendRequestRaw_priority_text_witness :
    mapGet? oauthErrorObject (lit "message") = none ∧
    sendRequestRaw (jsonLib oauthErrorObject) (stubClient (some (badRequest []), none))
        (lit "GET") (lit "/projects") none [] emptyWorld =
      (Except.ok (some (badRequest []),
        some ⟨lit "HTTP 400 Bad Request: Invalid user credentials"⟩),
        emptyWorld.afterDo (getProjects (jsonLib oauthErrorObject))) :=
  ⟨rfl,
   sendRequestRaw_priority_text (jsonLib oauthErrorObject)
    (stubClient (some (badRequest []), none)) (lit "GET") (lit "/projects") none []
    emptyWorld (getProjects (jsonLib oauthErrorObject)) (badRequest []) none []
    oauthErrorObject [lit "message"] [lit "error", lit "errorMessage"]
    (lit "error_description") (lit "Invalid user credentials") rfl rfl rfl (by decide) rfl rfl
    rfl (fun k' hk' => by rw [List.mem_singleton.mp hk']; rfl) rfl⟩

/-- C5: on a `400 Bad Request` whose body is the JSON object with `message` set to the number
123, `sendRequestRaw` does not return: the unchecked type assertion of line 180 panics. -/
theorem sendRequestRaw_number_message_panics :
    sendRequestRaw (jsonLib numberMessageObject)
        (stubClient (some (badRequest numberMessageBody), none))
        (lit "GET") (lit "/projects") none [] emptyWorld =
      (Except.error Panic.typeAssertion,
        emptyWorld.afterDo (getProjects (jsonLib numberMessageObject))) :=
  rfl

/-- Lines 155-171 of `sendRequestRaw` for a transport error `e` of `Do`. If the text of `e` is
exactly that of line 158 and the response is `r`, the result is the status classification of
`r`, as without a transport error. If the text of `e` is anything else, the response is
returned with `e` itself, whatever its status and body, and `sendRequestInternal` returns
`e`. -/
theorem sendRequestRaw_after_transport_error (lib : Lib) (c : Cx1Client) (method url : GoString)
    (body : Option GoString) (header : Header) (w : World) (request : Request)
    (response : Option Response) (e : GoError)
    (hreq : createRequest lib method url body header = (request, none))
    (hdo : c.httpClient.Do w.calls request = (response, some e)) :
    (e.text = tlsUserCanceled →
      (∀ r, response = some r →
        sendRequestRaw lib c method url body header w =
          (classifyResponse lib (some r), w.afterDo request) ∧
        (r.StatusCode < 400 →
          sendRequestRaw lib c method url body header w =
            (Except.ok (some r, none), w.afterDo request) ∧
          sendRequestInternal lib c method url body header w =
            (Except.ok (r.Body.getD [], none), w.afterDo request)) ∧
        (r.StatusCode ≥ 400 → ∀ out,
          (sendRequestRaw lib c method url body header w).1 = Except.ok out →
            ∃ str, out.2 = some ⟨lit "HTTP " ++ r.Status ++ lit ": " ++ str⟩))) ∧
    (e.text ≠ tlsUserCanceled →
      sendRequestRaw lib c method url body header w =
        (Except.ok (response.map Response.drained, some e), w.afterDo request) ∧
      sendRequestInternal lib c method url body header w =
        (Except.ok ([], some e), w.afterDo request)) := by
  constructor
  · intro he r hr
    subst hr
    have hc : continuesToStatusCheck (some e) = true := by
      simp [continuesToStatusCheck, he]
    have hraw := sendRequestRaw_classifies lib c method url body header w request (some r)
      (some e) hreq hdo hc
    refine ⟨hraw, fun hlt => ?_, fun hge out hout => ?_⟩
    · have hok : sendRequestRaw lib c method url body header w =
          (Except.ok (some r, none), w.afterDo request) := by
        rw [hraw, classifyResponse_success lib r hlt]
      refine ⟨hok, ?_⟩
      rw [sendRequestInternal_of_raw lib c method url body header w _ _ _ hok]
      cases hb : r.Body <;> simp [hb]
    · rw [hraw] at hout
      simp only [classifyResponse, hge, if_true] at hout
      cases hb : r.Body with
      | none => simp [hb] at hout
      | some resBody =>
        simp only [hb] at hout
        cases hj : lib.UnmarshalObject resBody with
        | error e' =>
          simp only [hj, Except.ok.injEq] at hout
          exact ⟨_, by rw [← hout]; rfl⟩
        | ok msg =>
          simp only [hj] at hout
          cases ht : errorBodyText msg resBody with
          | error p => simp [ht] at hout
          | ok str =>
            simp only [ht, Except.ok.injEq] at hout
            exact ⟨str, by rw [← hout]; rfl⟩
  · intro he
    have hraw : sendRequestRaw lib c method url body header w =
        (Except.ok (response.map Response.drained, some e), w.afterDo request) := by
      rw [sendRequestRaw_of_request lib c method url body header w request hreq, hdo]
      simp only [handleDoOutcome_of_fatal lib response e he]
    refine ⟨hraw, ?_⟩
    rw [sendRequestInternal_of_raw lib c method url body header w _ _ _ hraw]
    cases response with
    | none => rfl
    | some r => cases hb : r.Body <;> simp [Response.drained, hb]

theorem mapGet?_eq_none_iff {β : Type} (m : List (GoString × β)) (key : GoString) :
    mapGet? m key = none ↔ key ∉ mapKeys m := by
  simp only [mapGet?, mapKeys, Option.map_eq_none', List.find?_eq_none, decide_eq_true_eq,
    List.mem_map, Prod.exists, exists_and_right, exists_eq_right, not_exists]
  constructor
  · intro h x hx
    exact h (key, x) hx rfl
  · intro h p hp hpk
    exact h p.2 (by rw [← hpk]; exact hp)

theorem mapGet?_filter_ne {β : Type} (m : List (GoString × β)) (k key : GoString) :
    mapGet? (m.filter (fun p => !decide (p.1 = k))) key =
      if k = key then none else mapGet? m key := by
  induction m with
  | nil => simp [mapGet?]
  | cons p m ih =>
    by_cases hpk : p.1 = k
    · have hf : (p :: m).filter (fun p => !decide (p.1 = k)) =
          m.filter (fun p => !decide (p.1 = k)) := by simp [List.filter_cons, hpk]
      rw [hf, ih]
      by_cases hk : k = key
      · simp [hk]
      · have hpkey : ¬ p.1 = key := by rw [hpk]; exact hk
        simp [hk, mapGet?, List.find?_cons, hpkey]
    · have hf : (p :: m).filter (fun p => !decide (p.1 = k)) =
          p :: m.filter (fun p => !decide (p.1 = k)) := by simp [List.filter_cons, hpk]
      rw [hf]
      by_cases hpkey : p.1 = key
      · have hk : ¬ k = key := by rw [← hpkey]; exact fun h => hpk h.symm
        simp [hk, mapGet?, List.find?_cons, hpkey]
      · have ih2 : mapGet? (p :: m.filter (fun p => !decide (p.1 = k))) key =
            mapGet? (m.filter (fun p => !decide (p.1 = k))) key := by
          simp [mapGet?, List.find?_cons, hpkey]
        have ih3 : mapGet? (p :: m) key = mapGet? m key := by
          simp [mapGet?, List.find?_cons, hpkey]
        rw [ih2, ih, ih3]

theorem mapGet?_mapSet {β : Type} (m : List (GoString × β)) (k key : GoString) (v : β) :
    mapGet? (mapSet m k v) key = if k = key then some v else mapGet? m key := by
  by_cases hk : k = key
  · simp [mapSet, mapGet?, List.find?_cons, hk]
  · have h1 : mapGet? (mapSet m k v) key =
        mapGet? (m.filter (fun p => !decide (p.1 = k))) key := by
      simp [mapSet, mapGet?, List.find?_cons, hk]
    rw [h1, mapGet?_filter_ne, if_neg hk, if_neg hk]

theorem mapGet?_storeFlags (records : List FlagRecord) (flags : FlagMap) (name : GoString) :
    mapGet? (storeFlags flags records) name =
      match lastStatus records name with
      | some b => some b
      | none => mapGet? flags name := by
  induction records generalizing flags with
  | nil => simp [storeFlags, lastStatus]
  | cons fr rest ih =>
    have hstep : storeFlags flags (fr :: rest) =
        storeFlags (mapSet flags fr.Name fr.Status) rest := rfl
    rw [hstep, ih, mapGet?_mapSet]
    simp only [lastStatus, List.reverse_cons, List.find?_append]
    cases hrest : List.find? (fun fr => decide (fr.Name = name)) rest.reverse with
    | some x => simp
    | none =>
      by_cases hn : fr.Name = name
      · simp [hn]
      · simp [hn]

theorem engineAllowedIn_iff (lib : Lib) (engine : GoString) (engines : List GoString) :
    engineAllowedIn lib engine engines = true ↔
      ∃ eng ∈ engines, lib.EqualFold engine eng = true := by
  induction engines with
  | nil => simp [engineAllowedIn]
  | cons eng rest ih =>
    by_cases h : lib.EqualFold engine eng = true
    · simp [engineAllowedIn, h]
    · simp [engineAllowedIn, h, ih]

theorem RefreshFlags_of_sendRequest (lib : Lib) (c : Cx1Client) (w w1 : World)
    (response : GoString) (err : Option GoError)
    (h : sendRequest lib c (lit "GET") (flagsPath w) none [] w =
      (Except.ok (response, err), w1)) :
    RefreshFlags lib c w =
      match err with
      | some err => (Except.ok (some err), c, w1)
      | none =>
        match lib.UnmarshalFlags response with
        | Except.error err => (Except.ok (some err), c, w1)
        | Except.ok FlagResponse =>
          (Except.ok none, { c with flags := storeFlags [] FlagResponse }, w1) := by
  unfold flagsPath at h
  cases err <;> simp only [RefreshFlags, h]

/-! ## The claims on flags, license and construction -/

/-- C7: for every flags mapping and every name `n`: if `n` is a key, `CheckFlag` returns the
value stored for `n` with a nil error; if `n` is not a key, it returns false with the error
`no such flag: n`; so the error is nil exactly when `n` is a key, and a missing flag never
yields `(false, nil)`. -/
theorem CheckFlag_iff_present (c : Cx1Client) (n : GoString) :
    (∀ b, mapGet? c.flags n = some b → CheckFlag c n = (b, none)) ∧
    (n ∉ mapKeys c.flags →
      CheckFlag c n = (false, some ⟨lit "no such flag: " ++ n⟩) ∧
      CheckFlag c n ≠ (false, none)) ∧
    ((CheckFlag c n).2 = none ↔ n ∈ mapKeys c.flags) := by
  refine ⟨fun b hb => by simp [CheckFlag, hb], fun hn => ?_, ?_⟩
  · have h := (mapGet?_eq_none_iff c.flags n).mpr hn
    simp [CheckFlag, h]
  · cases h : mapGet? c.flags n with
    | none =>
      have hn := (mapGet?_eq_none_iff c.flags n).mp h
      simp [CheckFlag, h, hn]
    | some b =>
      have hn : n ∈ mapKeys c.flags := by
        by_contra hc
        rw [(mapGet?_eq_none_iff c.flags n).mpr hc] at h
        cases h
      simp [CheckFlag, h, hn]

/-- Witness of C7: on the flags `a: true`, `CheckFlag("a")` is `(true, nil)` and `CheckFlag("b")`
fails with `no such flag: b`. -/
theorem CheckFlag_iff_present_witness :
    CheckFlag (flagsClient (none, none) [(lit "a", true)]) (lit "a") = (true, none) ∧
    CheckFlag (flagsClient (none, none) [(lit "a", true)]) (lit "b") =
      (false, some ⟨lit "no such flag: b"⟩) :=
  ⟨(CheckFlag_iff_present (flagsClient (none, none) [(lit "a", true)]) (lit "a")).1 true rfl,
   ((CheckFlag_iff_present (flagsClient (none, none) [(lit "a", true)]) (lit "b")).2.1
     (by decide)).1⟩

/-- C8: `IsEngineAllowed(n)` is true exactly when some element of the license's allowed
engines equals `n` under `strings.EqualFold`; it is false for every `n` when the list is
empty, and `IsEngineAllowed("SAST")` is true when the list contains `sast` (which
`EqualFold` equates with `SAST`). -/
theorem IsEngineAllowed_iff_exists (lib : Lib) (c : Cx1Client) (n : GoString) :
    (IsEngineAllowed lib c n = true ↔
      ∃ eng ∈ c.claims.Cx1License.LicenseData.AllowedEngines, lib.EqualFold n eng = true) ∧
    (c.claims.Cx1License.LicenseData.AllowedEngines = [] → IsEngineAllowed lib c n = false) ∧
    (lib.EqualFold (lit "SAST") (lit "sast") = true →
      lit "sast" ∈ c.claims.Cx1License.LicenseData.AllowedEngines →
      IsEngineAllowed lib c (lit "SAST") = true) := by
  refine ⟨engineAllowedIn_iff lib n _, fun h => ?_, fun hfold hmem => ?_⟩
  · simp [IsEngineAllowed, h, engineAllowedIn]
  · exact (engineAllowedIn_iff lib (lit "SAST") _).mpr ⟨lit "sast", hmem, hfold⟩

/-- Witness of C8: with the allowed engines `kics`, `sast`, the engine `SAST` is allowed and the
engine `sca` is not. -/
theorem IsEngineAllowed_iff_exists_witness :
    IsEngineAllowed foldLib (licensedClient [lit "kics", lit "sast"]) (lit "SAST") = true ∧
    IsEngineAllowed foldLib (licensedClient [lit "kics", lit "sast"]) (lit "sca") = false ∧
    IsEngineAllowed foldLib (licensedClient []) (lit "SAST") = false :=
  ⟨(IsEngineAllowed_iff_exists foldLib (licensedClient [lit "kics", lit "sast"])
      (lit "SAST")).2.2 (by decide) (by decide),
   by decide,
   (IsEngineAllowed_iff_exists foldLib (licensedClient []) (lit "SAST")).2.1 rfl⟩

/-- C9: if the `/flags` dispatch returns a body with a nil error and the body decodes to a
sequence of records, `RefreshFlags` returns nil and `GetFlags` afterwards is the mapping built
from that sequence alone: each name has the status of its last record and no other name is
a key, whatever the mapping held before. If the dispatch returns an error, or the body
fails to decode, `RefreshFlags` returns that error and `GetFlags` is the mapping held
before. -/
theorem RefreshFlags_all_or_nothing (lib : Lib) (c : Cx1Client) (w w1 : World)
    (response : GoString) (err : Option GoError)
    (h : sendRequest lib c (lit "GET") (flagsPath w) none [] w =
      (Except.ok (response, err), w1)) :
    (∀ records, err = none → lib.UnmarshalFlags response = Except.ok records →
      (RefreshFlags lib c w).1 = Except.ok none ∧
      GetFlags (RefreshFlags lib c w).2.1 = storeFlags [] records ∧
      (∀ n, mapGet? (GetFlags (RefreshFlags lib c w).2.1) n = lastStatus records n) ∧
      (RefreshFlags lib c w).2.2 = w1) ∧
    (∀ e, err = some e →
      (RefreshFlags lib c w).1 = Except.ok (some e) ∧
      (RefreshFlags lib c w).2.1 = c ∧
      GetFlags (RefreshFlags lib c w).2.1 = GetFlags c) ∧
    (∀ e, err = none → lib.UnmarshalFlags response = Except.error e →
      (RefreshFlags lib c w).1 = Except.ok (some e) ∧
      (RefreshFlags lib c w).2.1 = c ∧
      GetFlags (RefreshFlags lib c w).2.1 = GetFlags c) := by
  have hr := RefreshFlags_of_sendRequest lib c w w1 response err h
  refine ⟨fun records herr hdec => ?_, fun e herr => ?_, fun e herr hdec => ?_⟩
  · subst herr
    simp only [hdec] at hr
    rw [hr]
    refine ⟨rfl, rfl, fun n => ?_, rfl⟩
    show mapGet? (storeFlags [] records) n = lastStatus records n
    rw [mapGet?_storeFlags]
    cases lastStatus records n <;> rfl
  · subst herr
    simp only at hr
    rw [hr]
    exact ⟨rfl, rfl, rfl⟩
  · subst herr
    simp only [hdec] at hr
    rw [hr]
    exact ⟨rfl, rfl, rfl⟩

/-- Witness of C9: a client that holds the flag `old` refreshes from a `200 OK` response that
decodes to the records `a: true`, `b: true`, `a: false`; afterwards `a` is false, `b` is
true and `old` is no longer a key. -/
theorem RefreshFlags_all_or_nothing_witness :
    (RefreshFlags
      (flagsLib [⟨lit "a", true⟩, ⟨lit "b", true⟩, ⟨lit "a", false⟩])
      (flagsClient (some (okResponse (lit "[...]")), none) [(lit "old", true)])
      emptyWorld).1 = Except.ok none ∧
    GetFlags (RefreshFlags
      (flagsLib [⟨lit "a", true⟩, ⟨lit "b", true⟩, ⟨lit "a", false⟩])
      (flagsClient (some (okResponse (lit "[...]")), none) [(lit "old", true)])
      emptyWorld).2.1 = [(lit "a", false), (lit "b", true)] :=
  ⟨((RefreshFlags_all_or_nothing
      (flagsLib [⟨lit "a", true⟩, ⟨lit "b", true⟩, ⟨lit "a", false⟩])
      (flagsClient (some (okResponse (lit "[...]")), none) [(lit "old", true)])
      emptyWorld _ (lit "[...]") none rfl).1 _ rfl rfl).1,
   ((RefreshFlags_all_or_nothing
      (flagsLib [⟨lit "a", true⟩, ⟨lit "b", true⟩, ⟨lit "a", false⟩])
      (flagsClient (some (okResponse (lit "[...]")), none) [(lit "old", true)])
      emptyWorld _ (lit "[...]") none rfl).1 _ rfl rfl).2.1⟩

/-- C10: when one of `base_url`, `iam_url`, `tenant`, `client_id`, `client_secret` is the
empty string, `NewOAuthClient` returns no client and the error `unable to create client:
invalid parameters provided`, and the world is the one it started in: nothing was handed to
the transport and no token was requested. -/
theorem NewOAuthClient_rejects_empty (lib : Lib) (client : Option HttpClient)
    (base_url iam_url tenant client_id client_secret : GoString) (logger : Option Logger)
    (w : World)
    (h : base_url = [] ∨ iam_url = [] ∨ tenant = [] ∨ client_id = [] ∨ client_secret = []) :
    NewOAuthClient lib client base_url iam_url tenant client_id client_secret logger w =
      (Except.ok (none,
        some ⟨lit "unable to create client: invalid parameters provided"⟩), w) := by
  have hcond : base_url = [] ∨ iam_url = [] ∨ tenant = [] ∨ client_id = [] ∨
      client_secret = [] ∨ logger = none := by
    rcases h with h | h | h | h | h <;> simp [h]
  simp only [NewOAuthClient, if_pos hcond]

/-- Witness of C10: an empty `client_secret` with every other argument valid. -/
theorem NewOAuthClient_rejects_empty_witness :
    NewOAuthClient stubLib (some ⟨fun _ _ => (some (okResponse (lit "[]")), none)⟩)
        (lit "https://cx1.example") (lit "https://iam.example") (lit "tenant") (lit "id") []
        (some Logger.mk) emptyWorld =
      (Except.ok (none,
        some ⟨lit "unable to create client: invalid parameters provided"⟩), emptyWorld) :=
  NewOAuthClient_rejects_empty stubLib (some ⟨fun _ _ => (some (okResponse (lit "[]")), none)⟩)
    (lit "https://cx1.example") (lit "https://iam.example") (lit "tenant") (lit "id") []
    (some Logger.mk) emptyWorld (by simp)

/-- With five non-empty strings, a logger and a transport, `NewOAuthClient` does use the
network: it hands the flags request to the transport and then asks for a token. -/
theorem NewOAuthClient_valid_uses_network :
    ((NewOAuthClient stubLib (some ⟨fun _ _ => (some (okResponse (lit "[]")), none)⟩)
        (lit "https://cx1.example") (lit "https://iam.example") (lit "tenant") (lit "id")
        (lit "secret") (some Logger.mk) emptyWorld).2.calls).length = 2 := by
  rfl

end Cx1ClientGo
